import Mathlib

/-!
Shallow embedding of the `arping` Go library (package `arping`, file `arping.go`,
plus the ARP codec and raw-socket transport it relies on).

Conventions of the embedding:
* byte sequences (`net.IP`, `net.HardwareAddr`, raw frames) are `List Nat`;
* wall-clock instants are `Nat` ticks; durations (`time.Duration`) are `Int`;
* the external world (interface lookup, source-IP resolution, socket open,
  send and receive outcomes with their timestamps) is an explicit `Env` record;
* the concurrent listener goroutine plus the `select` loop of `PingOverIface`
  are reconstructed deterministically from the timed event trace: a message
  offered on the unbuffered `pingResultChan` at time `t` is consumed by the
  main loop iff `t` is strictly before the currently armed `time.After`
  deadline (ties go to the timer); each `select` iteration re-arms the timer,
  exactly as `time.After(timeout)` does inside the `for`/`select` loop.
-/

namespace Arping

abbrev Bytes := List Nat

/-- Model of Go `net.IP.To4`: a 4-byte address is returned as is; a 16-byte
IPv4-in-IPv6 address (ten zero bytes then `0xff 0xff`) is shortened to its
last four bytes; anything else yields `none` (Go `nil`). -/
def ipTo4 (ip : Bytes) : Option Bytes :=
  if ip.length == 4 then some ip
  else if ip.length == 16 && (ip.take 10).all (· == 0)
        && ip.getD 10 0 == 0xff && ip.getD 11 0 == 0xff then
    some (ip.drop 12)
  else none

/-- Errors returned by the library; `ErrTimeout` is the distinguished package
variable, the others model the `error` values produced by `validateIP`, the
external collaborators and the transport. -/
inductive PingError where
  | ErrTimeout
  | notAValidV4Address
  | noUsableInterface
  | ifaceNotFound
  | resolveFailed
  | openFailed (code : Nat)
  | sendFailed (code : Nat)
  | receiveFailed (code : Nat)
deriving Repr, DecidableEq

/-- Model of `validateIP`: the ip must be a valid V4 address, i.e.
`len(ip.To4()) == net.IPv4len` (Go `len(nil) = 0`); otherwise the
"not a valid v4 Address" error is returned. -/
def validateIP (ip : Bytes) : Option PingError :=
  if ((ipTo4 ip).getD []).length ≠ 4 then some .notAValidV4Address else none

/-- The broadcast MAC `ff:ff:ff:ff:ff:ff` built in `PingOverIface` and
`GratuitousArpOverIface`. -/
def broadcastMac : Bytes := [0xff, 0xff, 0xff, 0xff, 0xff, 0xff]

/-- Modelled from the spec (the ARP codec source file is not under `src/`):
one ARP message plus its Ethernet envelope — fixed hardware/protocol types,
an opcode (1 = Request, 2 = Reply), sender/target hardware and protocol
addresses, and the Ethernet destination/source MACs. -/
structure ArpDatagram where
  ethDst : Bytes
  ethSrc : Bytes
  opcode : Nat
  sha : Bytes
  spa : Bytes
  tha : Bytes
  tpa : Bytes
deriving Repr, DecidableEq

/-- Modelled from the spec: `newArpRequest(srcMac, srcIP, dstMac, dstIP)`
builds a request-opcode datagram whose sender addresses are the local
MAC/IP, whose target addresses are the destination MAC/IP, and whose
Ethernet envelope goes from `srcMac` to `dstMac`. -/
def newArpRequest (srcMac srcIP dstMac dstIP : Bytes) : ArpDatagram :=
  ⟨dstMac, srcMac, 1, srcMac, srcIP, dstMac, dstIP⟩

/-- Modelled from the spec: sender-MAC accessor of a datagram. -/
def ArpDatagram.SenderMac (d : ArpDatagram) : Bytes := d.sha

/-- Modelled from the spec: sender-IP accessor of a datagram. -/
def ArpDatagram.SenderIP (d : ArpDatagram) : Bytes := d.spa

/-- Modelled from the spec: the correlation predicate — a candidate is a
response of the original request iff its opcode is Reply (2), its sender
protocol address equals the original's target protocol address, and its
target protocol address equals the original's sender protocol address.
Hardware addresses are deliberately not compared. -/
def ArpDatagram.IsResponseOf (d request : ArpDatagram) : Bool :=
  d.opcode == 2 && d.spa == request.tpa && d.tpa == request.spa

/-- Modelled from the spec: fixed-layout encoding — 14-byte Ethernet header
(destination MAC, source MAC, ethertype `0x0806`) followed by the 28-byte ARP
body (hardware type 1, protocol type `0x0800`, address lengths 6 and 4, the
big-endian opcode, then sender/target hardware and protocol addresses). -/
def encodeArp (d : ArpDatagram) : Bytes :=
  d.ethDst ++ d.ethSrc ++ [0x08, 0x06] ++
  ([0x00, 0x01, 0x08, 0x00, 6, 4, d.opcode / 256, d.opcode % 256] ++
   d.sha ++ d.spa ++ d.tha ++ d.tpa)

/-- Modelled from the spec: decoding rejects byte sequences shorter than the
fixed 42-byte size (Ethernet header plus 28-byte ARP body; the catch-all
branch) or whose ethertype is not ARP (`none` is the "not an ARP frame"
sentinel); otherwise the fields are read back from their fixed offsets —
destination MAC at 0, source MAC at 6, ethertype at 12, big-endian opcode at
20, then sender/target hardware and protocol addresses at 22, 28, 32 and 38;
trailing link-layer padding is tolerated. -/
def decodeArp (bs : Bytes) : Option ArpDatagram :=
  match bs with
  | d1 :: d2 :: d3 :: d4 :: d5 :: d6 ::
    s1 :: s2 :: s3 :: s4 :: s5 :: s6 :: et1 :: et2 ::
    _ht1 :: _ht2 :: _pt1 :: _pt2 :: _hlen :: _plen :: o1 :: o2 ::
    a1 :: a2 :: a3 :: a4 :: a5 :: a6 :: p1 :: p2 :: p3 :: p4 ::
    b1 :: b2 :: b3 :: b4 :: b5 :: b6 :: q1 :: q2 :: q3 :: q4 :: _padding =>
    if et1 == 0x08 && et2 == 0x06 then
      some ⟨[d1, d2, d3, d4, d5, d6], [s1, s2, s3, s4, s5, s6],
            o1 * 256 + o2,
            [a1, a2, a3, a4, a5, a6], [p1, p2, p3, p4],
            [b1, b2, b3, b4, b5, b6], [q1, q2, q3, q4]⟩
    else none
  | _ => none

/-- Model of Go `net.Interface`: only the hardware address is consumed by the
library (`iface.Name` feeds logging only). -/
structure NetIface where
  hardwareAddr : Bytes
deriving Repr, DecidableEq

/-- Model of the exported `Result` struct: `HwAddr` is a Go slice and may be
`nil` (`none`); `Duration` is the send-to-receive delta. -/
structure Result where
  hwAddr : Option Bytes
  duration : Int
deriving Repr, DecidableEq

/-- The external world of one call: outcomes of the Address Resolution
collaborators (`findUsableInterfaceForNetwork`, `net.InterfaceByName`,
`findIPInNetworkFromIface`), of the transport (`initialize` result, `send`
outcome with its timestamp, the timed sequence of `receive` outcomes — an
exhausted sequence means `receive` blocks forever), the instant the call
enters its select loop, and the package-wide `timeout` setting. -/
structure Env where
  findIfaceResult : Except PingError NetIface
  ifaceByNameResult : Except PingError NetIface
  resolveResult : Except PingError Bytes
  openResult : Option PingError
  sendOutcome : Except (PingError × Nat) Nat
  receives : List (Except (PingError × Nat) (Bytes × Nat))
  startTime : Nat
  timeout : Nat

/-- One `PingResult` message of the listener goroutine: either a correlated
reply (sender MAC and duration) or a transport error. -/
inductive PingMsg where
  | res (mac : Bytes) (duration : Int)
  | fail (e : PingError)
deriving Repr, DecidableEq

/-- The `Result` the main loop appends for a message: the error field of a
`fail` message is dropped, leaving a nil hardware address and zero duration
(this mirrors `results = append(results, Result{HwAddr: pingResult.mac,
Duration: pingResult.duration})`, which never inspects `pingResult.err`). -/
def PingMsg.toResult : PingMsg → Result
  | .res mac dur => ⟨some mac, dur⟩
  | .fail _ => ⟨none, 0⟩

/-- One observable step of the listener goroutine: `offer t m terminal`
offers message `m` on the unbuffered channel at time `t` (`terminal` marks
that the goroutine returns once the offer is consumed); `ignore t` records a
received frame at time `t` that decoded to a non-response and was dropped. -/
inductive GEvent where
  | offer (t : Nat) (m : PingMsg) (terminal : Bool)
  | ignore (t : Nat)
deriving Repr, DecidableEq

/-- The goroutine's receive loop over the timed receive outcomes: a receive
error is forwarded once and ends the loop (`return` after the send on the
channel); a decodable frame that `IsResponseOf` the request is forwarded with
its receive-minus-send duration; everything else is ignored. -/
def recvTrace (request : ArpDatagram) (sendTime : Nat) :
    List (Except (PingError × Nat) (Bytes × Nat)) → List GEvent
  | [] => []
  | .error (e, t) :: _ => [.offer t (.fail e) true]
  | .ok (bs, t) :: rest =>
    match decodeArp bs with
    | some d =>
      if d.IsResponseOf request then
        .offer t (.res d.SenderMac ((t : Int) - (sendTime : Int))) false ::
          recvTrace request sendTime rest
      else .ignore t :: recvTrace request sendTime rest
    | none => .ignore t :: recvTrace request sendTime rest

/-- The full goroutine trace: a failed send forwards the send error once and
returns; a successful send records the send timestamp and enters the receive
loop. -/
def goroutineTrace (request : ArpDatagram) (env : Env) : List GEvent :=
  match env.sendOutcome with
  | .error (e, t) => [.offer t (.fail e) true]
  | .ok sendTime => recvTrace request sendTime env.receives

/-- The channel offers of a goroutine trace, in order. -/
def offersOf : List GEvent → List (Nat × PingMsg × Bool)
  | [] => []
  | .offer t m b :: rest => (t, m, b) :: offersOf rest
  | .ignore _ :: rest => offersOf rest

/-- State of the main `select` loop when it exits: the accumulated results,
the clock at loop exit (the instant the last message was consumed, or the
loop entry time), and how many channel offers were consumed. -/
structure LoopOut where
  results : List Result
  clock : Nat
  consumed : Nat
deriving Repr, DecidableEq

/-- The main `for`/`select` loop of `PingOverIface`: each iteration re-arms
`time.After(timeout)` from the current clock; an offer arriving strictly
before that deadline is consumed (advancing the clock to the consumption
instant) and appended; otherwise the timer fires and the loop exits. -/
def loopA (tout : Nat) (clock : Nat) (acc : List Result) :
    List (Nat × PingMsg × Bool) → LoopOut
  | [] => ⟨acc, clock, 0⟩
  | (t, m, _) :: rest =>
    if t < clock + tout then
      let s := loopA tout (max clock t) (acc ++ [m.toResult]) rest
      ⟨s.results, s.clock, s.consumed + 1⟩
    else ⟨acc, clock, 0⟩

/-- Whether a goroutine trace ends with a terminal offer (the goroutine
returns — running its deferred socket release — once that offer is
consumed). -/
def endsTerminal : List GEvent → Bool
  | [] => false
  | [.offer _ _ b] => b
  | _ :: rest => endsTerminal rest

/-- Drop the goroutine-trace prefix up to and including the n-th offer. -/
def dropThroughOffers : Nat → List GEvent → List GEvent
  | 0, tr => tr
  | _ + 1, [] => []
  | n + 1, .offer _ _ _ :: rest => dropThroughOffers n rest
  | n + 1, .ignore _ :: rest => dropThroughOffers (n + 1) rest

/-- After the main loop exited at deadline `d` having set `running = false`,
the goroutine keeps draining frames: the first ignored frame processed
strictly after `d` makes the next `for running` check fail and the goroutine
return; a further channel offer blocks forever (nobody receives any more);
an exhausted event list leaves the goroutine parked in `receive`. -/
def walkFlag (d : Nat) : List GEvent → Bool
  | [] => false
  | .offer _ _ _ :: _ => false
  | .ignore t :: rest => if d < t then true else walkFlag d rest

/-- The results consumed by the select loop, as a stand-alone recursion over
the channel offers (used to state that the loop's outcome is a function of
this accumulation alone). -/
def accumulated (tout clock : Nat) : List (Nat × PingMsg × Bool) → List Result
  | [] => []
  | (t, m, _) :: rest =>
    if t < clock + tout then m.toResult :: accumulated tout (max clock t) rest
    else []

/-- The clock at which the select loop's final `time.After` timer was armed:
the consumption instant of the last consumed offer, or the loop entry time
when nothing was consumed. -/
def finalClock (tout clock : Nat) : List (Nat × PingMsg × Bool) → Nat
  | [] => clock
  | (t, _, _) :: rest =>
    if t < clock + tout then finalClock tout (max clock t) rest else clock

/-- Observable outcome of one `Ping`/`PingOverIface` call: the two Go return
values (`results` is `none` for a nil slice), how often `initialize` and
`deinitialize` ran, the datagrams handed to `send`, and the instant the call
returned. -/
structure PingOutput where
  results : Option (List Result)
  error : Option PingError
  openCalls : Nat
  deinitCalls : Nat
  sentFrames : List ArpDatagram
  endTime : Nat
deriving Repr, DecidableEq

/-- The goroutine-plus-select phase of `PingOverIface` after a successful
`initialize`: run the listener goroutine's trace against the
re-armed-deadline select loop, and return `ErrTimeout` on an empty
accumulation or the accumulated results otherwise.  `running = false` is
only reached on the non-empty path (the `ErrTimeout` branch returns from
inside the `select`), which together with the trace suffix determines
whether the goroutine's deferred `deinitialize` ever runs. -/
def pingLoopRun (request : ArpDatagram) (env : Env) : PingOutput :=
  let trace := goroutineTrace request env
  let s := loopA env.timeout env.startTime [] (offersOf trace)
  let deadline := s.clock + env.timeout
  let deinit :=
    (s.consumed == (offersOf trace).length && endsTerminal trace) ||
    (!s.results.isEmpty && walkFlag deadline (dropThroughOffers s.consumed trace))
  if s.results.isEmpty then
    ⟨none, some .ErrTimeout, 1, if deinit then 1 else 0, [request], deadline⟩
  else
    ⟨some s.results, none, 1, if deinit then 1 else 0, [request], deadline⟩

/-- Model of `PingOverIface`: validate the IP, resolve the source IP, build
the broadcast ARP request, open the socket, then hand over to
`pingLoopRun`. -/
def PingOverIface (dstIP : Bytes) (iface : NetIface) (env : Env) : PingOutput :=
  match validateIP dstIP with
  | some e => ⟨none, some e, 0, 0, [], env.startTime⟩
  | none =>
    match env.resolveResult with
    | .error e => ⟨none, some e, 0, 0, [], env.startTime⟩
    | .ok srcIP =>
      let request := newArpRequest iface.hardwareAddr srcIP broadcastMac dstIP
      match env.openResult with
      | some e => ⟨none, some e, 1, 0, [], env.startTime⟩
      | none => pingLoopRun request env

/-- Model of `Ping`: validate, auto-select the interface via
`findUsableInterfaceForNetwork`, then delegate to `PingOverIface`. -/
def Ping (dstIP : Bytes) (env : Env) : PingOutput :=
  match validateIP dstIP with
  | some e => ⟨none, some e, 0, 0, [], env.startTime⟩
  | none =>
    match env.findIfaceResult with
    | .error e => ⟨none, some e, 0, 0, [], env.startTime⟩
    | .ok iface => PingOverIface dstIP iface env

/-- Model of `PingOverIfaceByName`: validate, look the interface up via
`net.InterfaceByName`, then delegate to `PingOverIface`. -/
def PingOverIfaceByName (dstIP : Bytes) (_ifaceName : String) (env : Env) :
    PingOutput :=
  match validateIP dstIP with
  | some e => ⟨none, some e, 0, 0, [], env.startTime⟩
  | none =>
    match env.ifaceByNameResult with
    | .error e => ⟨none, some e, 0, 0, [], env.startTime⟩
    | .ok iface => PingOverIface dstIP iface env

/-- Observable outcome of a gratuitous-ARP call. -/
structure GratuitousOutput where
  error : Option PingError
  openCalls : Nat
  deinitCalls : Nat
  sentFrames : List ArpDatagram
deriving Repr, DecidableEq

/-- Model of `GratuitousArpOverIface`: validate the source IP, build a
request datagram whose sender and target protocol addresses are both
`srcIP` with broadcast destination, open the socket, send once under a
deferred `deinitialize`, and return the send error (or nil). -/
def GratuitousArpOverIface (srcIP : Bytes) (iface : NetIface) (env : Env) :
    GratuitousOutput :=
  match validateIP srcIP with
  | some e => ⟨some e, 0, 0, []⟩
  | none =>
    let request := newArpRequest iface.hardwareAddr srcIP broadcastMac srcIP
    match env.openResult with
    | some e => ⟨some e, 1, 0, []⟩
    | none =>
      match env.sendOutcome with
      | .error (e, _) => ⟨some e, 1, 1, [request]⟩
      | .ok _ => ⟨none, 1, 1, [request]⟩

/-- Model of `GratuitousArp`: validate, auto-select the interface, then
delegate to `GratuitousArpOverIface`. -/
def GratuitousArp (srcIP : Bytes) (env : Env) : GratuitousOutput :=
  match validateIP srcIP with
  | some e => ⟨some e, 0, 0, []⟩
  | none =>
    match env.findIfaceResult with
    | .error e => ⟨some e, 0, 0, []⟩
    | .ok iface => GratuitousArpOverIface srcIP iface env

/-- Model of `GratuitousArpOverIfaceByName`: validate, look the interface up
by name, then delegate to `GratuitousArpOverIface`. -/
def GratuitousArpOverIfaceByName (srcIP : Bytes) (_ifaceName : String)
    (env : Env) : GratuitousOutput :=
  match validateIP srcIP with
  | some e => ⟨some e, 0, 0, []⟩
  | none =>
    match env.ifaceByNameResult with
    | .error e => ⟨some e, 0, 0, []⟩
    | .ok iface => GratuitousArpOverIface srcIP iface env

/-! Concrete scenario inputs used by the closed theorems below. -/

/-- A concrete interface with MAC `01:02:03:04:05:06`. -/
def ifaceA : NetIface := ⟨[1, 2, 3, 4, 5, 6]⟩

/-- A concrete interface-name argument (its value is irrelevant: the lookup
outcome lives in the environment). -/
def nameA : String := ""

/-- A concrete 4-byte destination IP, `10.0.0.2`. -/
def dstA : Bytes := [10, 0, 0, 2]

/-- A concrete 4-byte source IP, `10.0.0.1`. -/
def srcA : Bytes := [10, 0, 0, 1]

/-- A correlated reply to the request for `dstA` from `srcA`, sent by a
responder with MAC `m`. -/
def replyFrom (m : Bytes) : ArpDatagram :=
  ⟨[1, 2, 3, 4, 5, 6], m, 2, m, dstA, [1, 2, 3, 4, 5, 6], srcA⟩

/-- Environment where the only transport event is a `receive` error at time
100, well inside the 500-tick window of a call starting at time 0. -/
def envC1 : Env :=
  ⟨.ok ifaceA, .ok ifaceA, .ok srcA, none, .ok 10,
   [.error (.receiveFailed 7, 100)], 0, 500⟩

/-- Environment where one correlated reply arrives at time 400, inside the
500-tick window of a call starting at time 0. -/
def envC2 : Env :=
  ⟨.ok ifaceA, .ok ifaceA, .ok srcA, none, .ok 0,
   [.ok (encodeArp (replyFrom [9, 9, 9, 9, 9, 9]), 400)], 0, 500⟩

/-- Environment where the send succeeds and no frame ever arrives: the
blocking `receive` never returns. -/
def envC4 : Env :=
  ⟨.ok ifaceA, .ok ifaceA, .ok srcA, none, .ok 0, [], 0, 500⟩

/-- Environment with two correlated replies, at times 40 and 60, from
responders `09:09:09:09:09:09` and `08:08:08:08:08:08`. -/
def envC5 : Env :=
  ⟨.ok ifaceA, .ok ifaceA, .ok srcA, none, .ok 5,
   [.ok (encodeArp (replyFrom [9, 9, 9, 9, 9, 9]), 40),
    .ok (encodeArp (replyFrom [8, 8, 8, 8, 8, 8]), 60)], 0, 500⟩

/-! Helper lemmas. -/

/-- A list of length 4 is a literal four-element list. -/
theorem length_four_exists (l : Bytes) (h : l.length = 4) :
    ∃ a b c d, l = [a, b, c, d] := by
  rcases l with _ | ⟨a, l⟩
  · simp at h
  rcases l with _ | ⟨b, l⟩
  · simp at h
  rcases l with _ | ⟨c, l⟩
  · simp at h
  rcases l with _ | ⟨d, l⟩
  · simp at h
  rcases l with _ | ⟨e, l⟩
  · exact ⟨a, b, c, d, rfl⟩
  · simp only [List.length_cons, List.length_nil] at h
    omega

/-- A list of length 6 is a literal six-element list. -/
theorem length_six_exists (l : Bytes) (h : l.length = 6) :
    ∃ a b c d e f, l = [a, b, c, d, e, f] := by
  rcases l with _ | ⟨a, l⟩
  · simp at h
  rcases l with _ | ⟨b, l⟩
  · simp at h
  rcases l with _ | ⟨c, l⟩
  · simp at h
  rcases l with _ | ⟨d, l⟩
  · simp at h
  rcases l with _ | ⟨e, l⟩
  · simp at h
  rcases l with _ | ⟨f, l⟩
  · simp at h
  rcases l with _ | ⟨g, l⟩
  · exact ⟨a, b, c, d, e, f, rfl⟩
  · simp only [List.length_cons, List.length_nil] at h
    omega

/-- Decoding inverts encoding for any datagram with well-formed 6-byte MACs,
4-byte protocol addresses and a 16-bit opcode. -/
theorem decodeArp_encodeArp (d : ArpDatagram)
    (h1 : d.ethDst.length = 6) (h2 : d.ethSrc.length = 6)
    (h3 : d.sha.length = 6) (h4 : d.spa.length = 4)
    (h5 : d.tha.length = 6) (h6 : d.tpa.length = 4)
    (hop : d.opcode < 65536) :
    decodeArp (encodeArp d) = some d := by
  obtain ⟨ethDst, ethSrc, op, sha, spa, tha, tpa⟩ := d
  simp only at h1 h2 h3 h4 h5 h6 hop
  obtain ⟨d1, d2, d3, d4, d5, d6, rfl⟩ := length_six_exists _ h1
  obtain ⟨s1, s2, s3, s4, s5, s6, rfl⟩ := length_six_exists _ h2
  obtain ⟨a1, a2, a3, a4, a5, a6, rfl⟩ := length_six_exists _ h3
  obtain ⟨p1, p2, p3, p4, rfl⟩ := length_four_exists _ h4
  obtain ⟨b1, b2, b3, b4, b5, b6, rfl⟩ := length_six_exists _ h5
  obtain ⟨q1, q2, q3, q4, rfl⟩ := length_four_exists _ h6
  simp only [encodeArp, decodeArp, List.cons_append, List.nil_append]
  norm_num
  omega

/-- A literal 4-byte address passes `validateIP`. -/
theorem validateIP_eq_none (ip : Bytes) (h : ip.length = 4) :
    validateIP ip = none := by
  simp [validateIP, ipTo4, h]

/-- The select loop's accumulated results are exactly the stand-alone
`accumulated` recursion over the offers. -/
theorem loopA_results_eq (tout : Nat) (offers : List (Nat × PingMsg × Bool)) :
    ∀ (clock : Nat) (acc : List Result),
      (loopA tout clock acc offers).results = acc ++ accumulated tout clock offers := by
  induction offers with
  | nil => intro clock acc; simp [loopA, accumulated]
  | cons hd tl ih =>
    intro clock acc
    obtain ⟨t, m, b⟩ := hd
    by_cases h : t < clock + tout
    · simp [loopA, accumulated, h, ih]
    · simp [loopA, accumulated, h]

/-- The select loop's exit clock is the stand-alone `finalClock` recursion
over the offers. -/
theorem loopA_clock_eq (tout : Nat) (offers : List (Nat × PingMsg × Bool)) :
    ∀ (clock : Nat) (acc : List Result),
      (loopA tout clock acc offers).clock = finalClock tout clock offers := by
  induction offers with
  | nil => intro clock acc; simp [loopA, finalClock]
  | cons hd tl ih =>
    intro clock acc
    obtain ⟨t, m, b⟩ := hd
    by_cases h : t < clock + tout
    · simp [loopA, finalClock, h, ih]
    · simp [loopA, finalClock, h]

/-- The final clock never precedes the loop entry clock. -/
theorem le_finalClock (tout : Nat) (offers : List (Nat × PingMsg × Bool)) :
    ∀ (clock : Nat), clock ≤ finalClock tout clock offers := by
  induction offers with
  | nil => intro clock; simp [finalClock]
  | cons hd tl ih =>
    intro clock
    obtain ⟨t, m, b⟩ := hd
    by_cases h : t < clock + tout
    · simp only [finalClock, h, if_true]
      exact le_trans (Nat.le_max_left clock t) (ih (max clock t))
    · simp [finalClock, h]

/-- `PingOverIface` under passing validation, successful resolution and a
successful `initialize` reduces to the goroutine-plus-select phase. -/
theorem PingOverIface_run (dstIP : Bytes) (iface : NetIface) (env : Env)
    (srcIP : Bytes) (hv : validateIP dstIP = none)
    (hr : env.resolveResult = .ok srcIP) (ho : env.openResult = none) :
    PingOverIface dstIP iface env =
      pingLoopRun (newArpRequest iface.hardwareAddr srcIP broadcastMac dstIP) env := by
  simp only [PingOverIface, hv, hr, ho]

/-! Claim theorems. -/

/-- Claim C1: the claim says a transport error after open is fatal and is
propagated exactly once as the error result of the call, rather than being
recorded as a ping result.  The code does the opposite: with a successful
send at time 10 and a receive error at time 100 (inside the 500-tick
window), the listening goroutine does terminate, but the main loop appends
the error message as `Result{HwAddr: nil, Duration: 0}` (the `err` field of
`PingResult` is never inspected) and the call returns that bogus result
with a nil error at the deadline. -/
theorem pingOverIface_swallows_receive_error :
    (PingOverIface dstA ifaceA envC1).error = none ∧
    (PingOverIface dstA ifaceA envC1).results = some [⟨none, 0⟩] ∧
    (PingOverIface dstA ifaceA envC1).deinitCalls = 1 := by decide

/-- Claim C4: the claim says the transport's `deinitialize` has been invoked
exactly once on every exit path when the call returns.  On the timeout path
with zero results (send succeeded at 0, no frame ever arrives), the call
returns `ErrTimeout` while `running` is never set to false and the
goroutine stays parked in the blocking `receive`, so its deferred
`deinitialize` never runs: the opened socket (`openCalls = 1`) is released
zero times, not once. -/
theorem pingOverIface_timeout_leaks_socket :
    (PingOverIface dstA ifaceA envC4).error = some .ErrTimeout ∧
    (PingOverIface dstA ifaceA envC4).openCalls = 1 ∧
    (PingOverIface dstA ifaceA envC4).deinitCalls = 0 := by decide

/-- Claim C2, counterexample: the claim says the timeout deadline is measured
once from the call's start so the call completes at call-start plus the
configured timeout.  With start time 0, timeout 500 and a single correlated
reply consumed at time 400, the `time.After(timeout)` rebuilt by the next
`select` iteration re-arms the deadline and the call returns at 900, not at
`startTime + timeout = 500`. -/
theorem pingOverIface_not_fixed_deadline :
    ¬ ((PingOverIface dstA ifaceA envC2).endTime =
        envC2.startTime + envC2.timeout) := by decide

/-- Claim C2, amended: the timeout deadline is re-armed on every received
result — the call completes at (the instant the last result was consumed, or
call start when none) plus the configured timeout; in particular there is
still no early-success exit and at least the full window from call start is
always spent. -/
theorem pingOverIface_rearmed_deadline (dstIP : Bytes) (iface : NetIface)
    (env : Env) (srcIP : Bytes) (hv : validateIP dstIP = none)
    (hr : env.resolveResult = .ok srcIP) (ho : env.openResult = none) :
    (PingOverIface dstIP iface env).endTime =
      finalClock env.timeout env.startTime
        (offersOf (goroutineTrace
          (newArpRequest iface.hardwareAddr srcIP broadcastMac dstIP) env)) +
        env.timeout ∧
    env.startTime + env.timeout ≤ (PingOverIface dstIP iface env).endTime := by
  rw [PingOverIface_run dstIP iface env srcIP hv hr ho]
  simp only [pingLoopRun]
  constructor
  · split <;> simp [loopA_clock_eq]
  · split <;>
      simpa [loopA_clock_eq] using
        Nat.add_le_add_right (le_finalClock env.timeout _ env.startTime) env.timeout

/-- Claim C2, witness for the amended theorem at the concrete
single-responder environment. -/
theorem pingOverIface_rearmed_deadline_witness :
    validateIP dstA = none ∧
    ((PingOverIface dstA ifaceA envC2).endTime =
      finalClock envC2.timeout envC2.startTime
        (offersOf (goroutineTrace
          (newArpRequest ifaceA.hardwareAddr srcA broadcastMac dstA) envC2)) +
        envC2.timeout ∧
     envC2.startTime + envC2.timeout ≤ (PingOverIface dstA ifaceA envC2).endTime) :=
  ⟨by decide, pingOverIface_rearmed_deadline dstA ifaceA envC2 srcA (by decide) rfl rfl⟩

/-- Claim C3: on deadline expiry the outcome is a function of the
accumulated results alone — an empty accumulation returns the distinguished
`ErrTimeout` with a nil result slice, and a non-empty accumulation returns
exactly the accumulated sequence with a nil error. -/
theorem pingOverIface_deadline_outcome (dstIP : Bytes) (iface : NetIface)
    (env : Env) (srcIP : Bytes) (hv : validateIP dstIP = none)
    (hr : env.resolveResult = .ok srcIP) (ho : env.openResult = none) :
    (accumulated env.timeout env.startTime
        (offersOf (goroutineTrace
          (newArpRequest iface.hardwareAddr srcIP broadcastMac dstIP) env)) = [] →
      (PingOverIface dstIP iface env).results = none ∧
      (PingOverIface dstIP iface env).error = some .ErrTimeout) ∧
    (accumulated env.timeout env.startTime
        (offersOf (goroutineTrace
          (newArpRequest iface.hardwareAddr srcIP broadcastMac dstIP) env)) ≠ [] →
      (PingOverIface dstIP iface env).results =
        some (accumulated env.timeout env.startTime
          (offersOf (goroutineTrace
            (newArpRequest iface.hardwareAddr srcIP broadcastMac dstIP) env))) ∧
      (PingOverIface dstIP iface env).error = none) := by
  rw [PingOverIface_run dstIP iface env srcIP hv hr ho]
  simp only [pingLoopRun]
  have hres := loopA_results_eq env.timeout
    (offersOf (goroutineTrace
      (newArpRequest iface.hardwareAddr srcIP broadcastMac dstIP) env))
    env.startTime []
  simp only [List.nil_append] at hres
  split
  next hemp =>
    rw [hres] at hemp
    refine ⟨fun _ => ⟨rfl, rfl⟩, fun hne => absurd ?_ hne⟩
    exact List.isEmpty_iff.mp hemp
  next hemp =>
    rw [hres] at hemp
    refine ⟨fun h0 => ?_, fun _ => ⟨by rw [hres], rfl⟩⟩
    rw [h0] at hemp
    simp at hemp

/-- Claim C3, witness at the empty-trace environment: the accumulation is
empty and the call returns `ErrTimeout` with a nil slice. -/
theorem pingOverIface_deadline_outcome_witness :
    validateIP dstA = none ∧
    ((accumulated envC4.timeout envC4.startTime
        (offersOf (goroutineTrace
          (newArpRequest ifaceA.hardwareAddr srcA broadcastMac dstA) envC4)) = [] →
      (PingOverIface dstA ifaceA envC4).results = none ∧
      (PingOverIface dstA ifaceA envC4).error = some .ErrTimeout) ∧
     (accumulated envC4.timeout envC4.startTime
        (offersOf (goroutineTrace
          (newArpRequest ifaceA.hardwareAddr srcA broadcastMac dstA) envC4)) ≠ [] →
      (PingOverIface dstA ifaceA envC4).results =
        some (accumulated envC4.timeout envC4.startTime
          (offersOf (goroutineTrace
            (newArpRequest ifaceA.hardwareAddr srcA broadcastMac dstA) envC4))) ∧
      (PingOverIface dstA ifaceA envC4).error = none)) :=
  ⟨by decide, pingOverIface_deadline_outcome dstA ifaceA envC4 srcA (by decide) rfl rfl⟩

/-- Claim C5: two distinct correlated replies arriving before the deadline
(both strictly inside the window measured from call start, after a
successful send at `ts`) produce exactly two results, in receipt order,
each with a positive duration computed from the send timestamp to that
reply's receive timestamp. -/
theorem pingOverIface_two_responders (iface : NetIface) (env : Env)
    (dstIP srcIP m1 m2 : Bytes) (ts t1 t2 : Nat)
    (hmac : iface.hardwareAddr.length = 6)
    (hm1 : m1.length = 6) (hm2 : m2.length = 6)
    (hd : dstIP.length = 4) (hs : srcIP.length = 4)
    (_hne : m1 ≠ m2)
    (hr : env.resolveResult = .ok srcIP) (ho : env.openResult = none)
    (hsend : env.sendOutcome = .ok ts)
    (hrecv : env.receives =
      [.ok (encodeArp ⟨iface.hardwareAddr, m1, 2, m1, dstIP, iface.hardwareAddr, srcIP⟩, t1),
       .ok (encodeArp ⟨iface.hardwareAddr, m2, 2, m2, dstIP, iface.hardwareAddr, srcIP⟩, t2)])
    (hts : ts < t1) (h12 : t1 ≤ t2) (hwin : t2 < env.startTime + env.timeout) :
    (PingOverIface dstIP iface env).results =
      some [⟨some m1, (t1 : Int) - (ts : Int)⟩, ⟨some m2, (t2 : Int) - (ts : Int)⟩] ∧
    (PingOverIface dstIP iface env).error = none ∧
    (0 : Int) < (t1 : Int) - (ts : Int) ∧ (0 : Int) < (t2 : Int) - (ts : Int) := by
  rw [PingOverIface_run dstIP iface env srcIP (validateIP_eq_none dstIP hd) hr ho]
  have hdec1 : decodeArp (encodeArp
      ⟨iface.hardwareAddr, m1, 2, m1, dstIP, iface.hardwareAddr, srcIP⟩) =
      some ⟨iface.hardwareAddr, m1, 2, m1, dstIP, iface.hardwareAddr, srcIP⟩ :=
    decodeArp_encodeArp _ hmac hm1 hm1 hd hmac hs (by show (2 : Nat) < 65536; omega)
  have hdec2 : decodeArp (encodeArp
      ⟨iface.hardwareAddr, m2, 2, m2, dstIP, iface.hardwareAddr, srcIP⟩) =
      some ⟨iface.hardwareAddr, m2, 2, m2, dstIP, iface.hardwareAddr, srcIP⟩ :=
    decodeArp_encodeArp _ hmac hm2 hm2 hd hmac hs (by show (2 : Nat) < 65536; omega)
  have htrace : goroutineTrace
      (newArpRequest iface.hardwareAddr srcIP broadcastMac dstIP) env =
      [.offer t1 (.res m1 ((t1 : Int) - (ts : Int))) false,
       .offer t2 (.res m2 ((t2 : Int) - (ts : Int))) false] := by
    simp [goroutineTrace, hsend, hrecv, recvTrace, hdec1, hdec2,
          ArpDatagram.IsResponseOf, newArpRequest, ArpDatagram.SenderMac]
  have c1 : t1 < env.startTime + env.timeout := by omega
  have c2 : t2 < max env.startTime t1 + env.timeout := by
    have := Nat.le_max_left env.startTime t1
    omega
  simp only [pingLoopRun, htrace, offersOf, loopA, c1, c2, if_true,
             PingMsg.toResult, List.nil_append]
  refine ⟨?_, ?_, by omega, by omega⟩ <;> simp [loopA]

/-- Claim C5, witness at the concrete two-responder environment. -/
theorem pingOverIface_two_responders_witness :
    ([9, 9, 9, 9, 9, 9] : Bytes) ≠ [8, 8, 8, 8, 8, 8] ∧ (5 : Nat) < 40 ∧
    ((PingOverIface dstA ifaceA envC5).results =
      some [⟨some [9, 9, 9, 9, 9, 9], ((40 : Nat) : Int) - ((5 : Nat) : Int)⟩,
            ⟨some [8, 8, 8, 8, 8, 8], ((60 : Nat) : Int) - ((5 : Nat) : Int)⟩] ∧
     (PingOverIface dstA ifaceA envC5).error = none ∧
     (0 : Int) < ((40 : Nat) : Int) - ((5 : Nat) : Int) ∧
     (0 : Int) < ((60 : Nat) : Int) - ((5 : Nat) : Int)) :=
  ⟨by decide, by decide,
   pingOverIface_two_responders ifaceA envC5 dstA srcA
     [9, 9, 9, 9, 9, 9] [8, 8, 8, 8, 8, 8] 5 40 60
     rfl rfl rfl rfl rfl (by decide) rfl rfl rfl rfl
     (by decide) (by decide) (by decide)⟩

/-- Claim C6: the gratuitous announcement builds a single request-opcode
frame whose sender and target protocol addresses both equal the source IP
and whose Ethernet destination is the broadcast MAC, hands exactly that one
frame to `send`, and succeeds iff the send succeeded. -/
theorem gratuitousArp_one_shot (srcIP : Bytes) (iface : NetIface) (env : Env)
    (hv : validateIP srcIP = none) (ho : env.openResult = none) :
    (GratuitousArpOverIface srcIP iface env).sentFrames =
      [newArpRequest iface.hardwareAddr srcIP broadcastMac srcIP] ∧
    (newArpRequest iface.hardwareAddr srcIP broadcastMac srcIP).opcode = 1 ∧
    (newArpRequest iface.hardwareAddr srcIP broadcastMac srcIP).spa = srcIP ∧
    (newArpRequest iface.hardwareAddr srcIP broadcastMac srcIP).tpa = srcIP ∧
    (newArpRequest iface.hardwareAddr srcIP broadcastMac srcIP).ethDst = broadcastMac ∧
    ((GratuitousArpOverIface srcIP iface env).error = none ↔
      ∃ t, env.sendOutcome = .ok t) := by
  simp only [GratuitousArpOverIface, hv, ho]
  cases hsend : env.sendOutcome with
  | error p =>
    obtain ⟨e, t⟩ := p
    simp [newArpRequest, hsend]
  | ok t =>
    simp [newArpRequest, hsend]

/-- Claim C6, witness at the concrete environment with a successful send at
time 10. -/
theorem gratuitousArp_one_shot_witness :
    validateIP srcA = none ∧
    ((GratuitousArpOverIface srcA ifaceA envC1).sentFrames =
      [newArpRequest ifaceA.hardwareAddr srcA broadcastMac srcA] ∧
     (newArpRequest ifaceA.hardwareAddr srcA broadcastMac srcA).opcode = 1 ∧
     (newArpRequest ifaceA.hardwareAddr srcA broadcastMac srcA).spa = srcA ∧
     (newArpRequest ifaceA.hardwareAddr srcA broadcastMac srcA).tpa = srcA ∧
     (newArpRequest ifaceA.hardwareAddr srcA broadcastMac srcA).ethDst = broadcastMac ∧
     ((GratuitousArpOverIface srcA ifaceA envC1).error = none ↔
       ∃ t, envC1.sendOutcome = .ok t)) :=
  ⟨by decide, gratuitousArp_one_shot srcA ifaceA envC1 (by decide) rfl⟩

/-- Claim C7: an input IP that is not a valid 4-byte IPv4 address makes every
public operation return the validation error with a nil result, with the
transport never opened (`openCalls = 0`, `deinitCalls = 0`) and no frame
handed to `send`. -/
theorem validation_precedes_transport (ip : Bytes) (e : PingError)
    (hv : validateIP ip = some e) (iface : NetIface) (name : String)
    (env : Env) :
    Ping ip env = ⟨none, some e, 0, 0, [], env.startTime⟩ ∧
    PingOverIfaceByName ip name env = ⟨none, some e, 0, 0, [], env.startTime⟩ ∧
    PingOverIface ip iface env = ⟨none, some e, 0, 0, [], env.startTime⟩ ∧
    GratuitousArp ip env = ⟨some e, 0, 0, []⟩ ∧
    GratuitousArpOverIfaceByName ip name env = ⟨some e, 0, 0, []⟩ ∧
    GratuitousArpOverIface ip iface env = ⟨some e, 0, 0, []⟩ := by
  simp [Ping, PingOverIfaceByName, PingOverIface, GratuitousArp,
        GratuitousArpOverIfaceByName, GratuitousArpOverIface, hv]

/-- Claim C7, witness at the 16-byte IPv6 address `2001:db8::1`. -/
theorem validation_precedes_transport_witness :
    validateIP [0x20, 0x01, 0x0d, 0xb8, 0, 0, 0, 0, 0, 0, 0, 0, 0, 0, 0, 1] =
      some .notAValidV4Address ∧
    (Ping [0x20, 0x01, 0x0d, 0xb8, 0, 0, 0, 0, 0, 0, 0, 0, 0, 0, 0, 1] envC4 =
      ⟨none, some .notAValidV4Address, 0, 0, [], envC4.startTime⟩ ∧
     PingOverIfaceByName [0x20, 0x01, 0x0d, 0xb8, 0, 0, 0, 0, 0, 0, 0, 0, 0, 0, 0, 1]
        nameA envC4 =
      ⟨none, some .notAValidV4Address, 0, 0, [], envC4.startTime⟩ ∧
     PingOverIface [0x20, 0x01, 0x0d, 0xb8, 0, 0, 0, 0, 0, 0, 0, 0, 0, 0, 0, 1]
        ifaceA envC4 =
      ⟨none, some .notAValidV4Address, 0, 0, [], envC4.startTime⟩ ∧
     GratuitousArp [0x20, 0x01, 0x0d, 0xb8, 0, 0, 0, 0, 0, 0, 0, 0, 0, 0, 0, 1] envC4 =
      ⟨some .notAValidV4Address, 0, 0, []⟩ ∧
     GratuitousArpOverIfaceByName
        [0x20, 0x01, 0x0d, 0xb8, 0, 0, 0, 0, 0, 0, 0, 0, 0, 0, 0, 1] nameA envC4 =
      ⟨some .notAValidV4Address, 0, 0, []⟩ ∧
     GratuitousArpOverIface
        [0x20, 0x01, 0x0d, 0xb8, 0, 0, 0, 0, 0, 0, 0, 0, 0, 0, 0, 1] ifaceA envC4 =
      ⟨some .notAValidV4Address, 0, 0, []⟩) :=
  ⟨by decide,
   validation_precedes_transport _ _ (by decide) ifaceA nameA envC4⟩

/-- Claim C8: `IsResponseOf` holds iff the candidate's opcode is Reply, its
sender protocol address equals the original's target protocol address and
its target protocol address equals the original's sender protocol address;
in particular a Request-opcode frame is never judged a response. -/
theorem isResponseOf_characterization (c o : ArpDatagram) :
    (c.IsResponseOf o = true ↔ c.opcode = 2 ∧ c.spa = o.tpa ∧ c.tpa = o.spa) ∧
    (c.opcode = 1 → c.IsResponseOf o = false) := by
  constructor
  · simp [ArpDatagram.IsResponseOf, and_assoc]
  · intro h
    simp [ArpDatagram.IsResponseOf, h]

/-- Claim C8, witness: a concrete Reply with matching protocol addresses is
judged a response, and the characterization instantiates there. -/
theorem isResponseOf_characterization_witness :
    ((replyFrom [9, 9, 9, 9, 9, 9]).IsResponseOf
        (newArpRequest [1, 2, 3, 4, 5, 6] srcA broadcastMac dstA) = true ↔
      (replyFrom [9, 9, 9, 9, 9, 9]).opcode = 2 ∧
      (replyFrom [9, 9, 9, 9, 9, 9]).spa =
        (newArpRequest [1, 2, 3, 4, 5, 6] srcA broadcastMac dstA).tpa ∧
      (replyFrom [9, 9, 9, 9, 9, 9]).tpa =
        (newArpRequest [1, 2, 3, 4, 5, 6] srcA broadcastMac dstA).spa) ∧
    ((replyFrom [9, 9, 9, 9, 9, 9]).opcode = 1 →
      (replyFrom [9, 9, 9, 9, 9, 9]).IsResponseOf
        (newArpRequest [1, 2, 3, 4, 5, 6] srcA broadcastMac dstA) = false) :=
  isResponseOf_characterization (replyFrom [9, 9, 9, 9, 9, 9])
    (newArpRequest [1, 2, 3, 4, 5, 6] srcA broadcastMac dstA)

/-- Claim C9: for valid 6-byte MACs, 4-byte IPv4 addresses and either opcode
(Request or Reply), decoding the encoding of the datagram built from them
reproduces all sender/target addresses and the opcode exactly. -/
theorem arp_codec_roundtrip (ethDst ethSrc sha spa tha tpa : Bytes) (op : Nat)
    (h1 : ethDst.length = 6) (h2 : ethSrc.length = 6) (h3 : sha.length = 6)
    (h4 : spa.length = 4) (h5 : tha.length = 6) (h6 : tpa.length = 4)
    (hop : op = 1 ∨ op = 2) :
    decodeArp (encodeArp ⟨ethDst, ethSrc, op, sha, spa, tha, tpa⟩) =
      some ⟨ethDst, ethSrc, op, sha, spa, tha, tpa⟩ :=
  decodeArp_encodeArp ⟨ethDst, ethSrc, op, sha, spa, tha, tpa⟩
    h1 h2 h3 h4 h5 h6 (by show op < 65536; rcases hop with h | h <;> omega)

/-- Claim C9, witness at a concrete Reply datagram. -/
theorem arp_codec_roundtrip_witness :
    ([1, 2, 3, 4, 5, 6] : Bytes).length = 6 ∧ ((2 : Nat) = 1 ∨ (2 : Nat) = 2) ∧
    decodeArp (encodeArp
        ⟨[1, 2, 3, 4, 5, 6], [9, 9, 9, 9, 9, 9], 2,
         [9, 9, 9, 9, 9, 9], dstA, [1, 2, 3, 4, 5, 6], srcA⟩) =
      some ⟨[1, 2, 3, 4, 5, 6], [9, 9, 9, 9, 9, 9], 2,
            [9, 9, 9, 9, 9, 9], dstA, [1, 2, 3, 4, 5, 6], srcA⟩ :=
  ⟨by decide, by decide,
   arp_codec_roundtrip [1, 2, 3, 4, 5, 6] [9, 9, 9, 9, 9, 9]
     [9, 9, 9, 9, 9, 9] dstA [1, 2, 3, 4, 5, 6] srcA 2
     rfl rfl rfl rfl rfl rfl (Or.inr rfl)⟩

/-- Claim C10: the error result and the result slice of `PingOverIface` are
mutually exclusive — a nil error comes with a non-empty slice, and any
non-nil error (including `ErrTimeout`) comes with a nil slice. -/
theorem pingOverIface_results_error_exclusive (dstIP : Bytes)
    (iface : NetIface) (env : Env) :
    ((PingOverIface dstIP iface env).error = none →
      ∃ rs, (PingOverIface dstIP iface env).results = some rs ∧ rs ≠ []) ∧
    ((PingOverIface dstIP iface env).error ≠ none →
      (PingOverIface dstIP iface env).results = none) := by
  unfold PingOverIface
  cases hv : validateIP dstIP with
  | some e => simp
  | none =>
    cases hr : env.resolveResult with
    | error e => simp
    | ok srcIP =>
      cases ho : env.openResult with
      | some e => simp
      | none =>
        simp only [pingLoopRun]
        split
        next hemp => simp
        next hemp =>
          refine ⟨fun _ => ⟨_, rfl, fun h0 => ?_⟩, by simp⟩
          rw [h0] at hemp
          simp at hemp

/-- Claim C10, witness at the receive-error environment: the call returns a
nil error, so the slice is non-empty. -/
theorem pingOverIface_results_error_exclusive_witness :
    ((PingOverIface dstA ifaceA envC1).error = none →
      ∃ rs, (PingOverIface dstA ifaceA envC1).results = some rs ∧ rs ≠ []) ∧
    ((PingOverIface dstA ifaceA envC1).error ≠ none →
      (PingOverIface dstA ifaceA envC1).results = none) :=
  pingOverIface_results_error_exclusive dstA ifaceA envC1

end Arping
